import Mathlib

/-!
Shallow embedding of the substreams engine core: the store data model with
its policy-driven merge (`state/merge_test.go`, `state/value_set.go`), the
request resolver (`pipeline` tests), the linear back-processing strategy
(`orchestrator/strategy.go`) and the sub-request detection of the gRPC
service (`service`). Byte slices are modelled as `String` (Go byte-equality
coincides with `String` equality), `uint64` as `Nat`, fallible Go functions
as `Except String`.
-/

namespace SubstreamsModel

/-- Association list modelling a Go `map[string][]byte`; the byte-slice
values are modelled as `String`. -/
abbrev KVMap := List (String × String)

/-- Lookup of the first binding of a key, modelling Go map access. -/
def kvGet : KVMap → String → Option String
  | [], _ => none
  | (k', v) :: rest, k => if k' = k then some v else kvGet rest k

/-- Map insertion: replaces the first binding of the key, or appends a
fresh binding. -/
def kvSet : KVMap → String → String → KVMap
  | [], k, v => [(k, v)]
  | (k', v') :: rest, k, v =>
      if k' = k then (k, v) :: rest else (k', v') :: kvSet rest k v

/-- Deletion of a key, modelling `delete` on a Go map. -/
def kvDel : KVMap → String → KVMap
  | [], _ => []
  | (k', v') :: rest, k =>
      if k' = k then kvDel rest k else (k', v') :: kvDel rest k

/-- Go `strings.HasPrefix`, computed on the character lists. -/
def strStartsWith (s p : String) : Bool :=
  p.data.isPrefixOf s.data

/-- Store update policies, from the module declaration
(`Module_KindStore_UPDATE_POLICY_*`). -/
inductive UpdatePolicy
  | unset
  | set
  | setIfNotExists
  | append
  | replace
  | ignore
  | sum
  | min
  | max
deriving Repr, DecidableEq

/-- Declared value types of a store (`OutputValueType*`). -/
inductive ValueType
  | bytes
  | string
  | int64
  | float64
  | bigInt
  | bigFloat
  | proto
deriving Repr, DecidableEq

/-- Exact decimal number `m / 10 ^ e`, modelling the arbitrary-precision
decimal arithmetic used for the Float64/BigFloat value types. -/
structure Dec where
  m : Int
  e : Nat
deriving Repr, DecidableEq

/-- Scales the mantissa of `d` up to exponent `e'` (intended `e' ≥ d.e`). -/
def decScale (d : Dec) (e' : Nat) : Int :=
  d.m * (10 : Int) ^ (e' - d.e)

/-- Exact addition of decimals, aligning exponents. -/
def decAdd (a b : Dec) : Dec :=
  let e := Nat.max a.e b.e
  ⟨decScale a e + decScale b e, e⟩

/-- Comparison of decimals after aligning exponents. -/
def decLE (a b : Dec) : Bool :=
  let e := Nat.max a.e b.e
  decide (decScale a e ≤ decScale b e)

/-- Exact minimum of two decimals. -/
def decMin (a b : Dec) : Dec :=
  if decLE a b then a else b

/-- Exact maximum of two decimals. -/
def decMax (a b : Dec) : Dec :=
  if decLE a b then b else a

/-- Digit accumulation for decimal integer parsing. -/
def charsToNatAux : List Char → Nat → Option Nat
  | [], acc => some acc
  | c :: rest, acc =>
      if c.isDigit then charsToNatAux rest (acc * 10 + (c.toNat - 48)) else none

/-- Parses a non-empty all-digit character list as a natural number. -/
def parseNatChars (cs : List Char) : Option Nat :=
  if cs.isEmpty then none else charsToNatAux cs 0

/-- Parses a decimal integer with an optional leading minus sign. -/
def parseIntStr (s : String) : Option Int :=
  match s.data with
  | '-' :: rest => (parseNatChars rest).map (fun n => -(n : Int))
  | cs => (parseNatChars cs).map (fun n => (n : Int))

/-- Lenient integer parse: an absent or malformed value is the type's zero. -/
def parseIntLenient (s : String) : Int :=
  (parseIntStr s).getD 0

/-- Splits a character list at the first dot, if any. -/
def splitAtDot : List Char → List Char × Option (List Char)
  | [] => ([], none)
  | '.' :: rest => ([], some rest)
  | c :: rest =>
      let (a, b) := splitAtDot rest
      (c :: a, b)

/-- Parses an unsigned decimal numeral such as `10.1` into a `Dec`. -/
def parseDecChars (cs : List Char) : Option Dec :=
  match splitAtDot cs with
  | (ip, none) => (parseNatChars ip).map (fun n => ⟨(n : Int), 0⟩)
  | (ip, some fp) =>
      match parseNatChars ip, parseNatChars fp with
      | some a, some b => some ⟨(a : Int) * (10 : Int) ^ fp.length + (b : Int), fp.length⟩
      | _, _ => none

/-- Parses a signed decimal numeral into a `Dec`. -/
def parseDecStr (s : String) : Option Dec :=
  match s.data with
  | '-' :: rest => (parseDecChars rest).map (fun d => ⟨-d.m, d.e⟩)
  | cs => parseDecChars cs

/-- Lenient decimal parse: an absent or malformed value is the type's zero. -/
def parseDecLenient (s : String) : Dec :=
  (parseDecStr s).getD ⟨0, 0⟩

/-- Removes trailing zero digits of the fractional part. -/
def stripTrailingZeros : Int → Nat → Int × Nat
  | m, 0 => (m, 0)
  | m, e + 1 => if m % 10 = 0 then stripTrailingZeros (m / 10) e else (m, e + 1)

/-- Left-pads a numeral with zeros up to length `n`. -/
def padZeros (s : String) (n : Nat) : String :=
  if s.length ≥ n then s else String.mk (List.replicate (n - s.length) '0') ++ s

/-- Formats a `Dec` back to its shortest decimal numeral. -/
def formatDec (d : Dec) : String :=
  let p := stripTrailingZeros d.m d.e
  if p.2 = 0 then toString p.1
  else
    let am := p.1.natAbs
    let ip := am / 10 ^ p.2
    let fp := am % 10 ^ p.2
    (if p.1 < 0 then "-" else "") ++ toString ip ++ "." ++ padZeros (toString fp) p.2

/-- Numeric merge operations of the Sum/Min/Max update policies. -/
inductive NumOp
  | opSum
  | opMin
  | opMax
deriving Repr, DecidableEq

/-- The update policy implemented by a numeric merge operation. -/
def numPolicy : NumOp → UpdatePolicy
  | .opSum => .sum
  | .opMin => .min
  | .opMax => .max

/-- Integer semantics of a numeric merge operation. -/
def intOp : NumOp → Int → Int → Int
  | .opSum, a, b => a + b
  | .opMin, a, b => Min.min a b
  | .opMax, a, b => Max.max a b

/-- Decimal semantics of a numeric merge operation. -/
def decOp : NumOp → Dec → Dec → Dec
  | .opSum, a, b => decAdd a b
  | .opMin, a, b => decMin a b
  | .opMax, a, b => decMax a b

/-- Modelled from the spec: the typed numeric resolution of a shared key
during `Merge` ("numeric addition / minimum / maximum using the typed
parser", lenient parsing). The implementation of `Builder.Merge` is not
under `src/`; only `state/merge_test.go` is. Int64 and BigInt parse as
integers, Float64 and BigFloat as exact decimals; other value types
cannot be merged numerically. -/
def numericMergeValue (op : NumOp) (vt : ValueType) (prevV latestV : String) :
    Except String String :=
  match vt with
  | .int64 => .ok (toString (intOp op (parseIntLenient prevV) (parseIntLenient latestV)))
  | .bigInt => .ok (toString (intOp op (parseIntLenient prevV) (parseIntLenient latestV)))
  | .float64 => .ok (formatDec (decOp op (parseDecLenient prevV) (parseDecLenient latestV)))
  | .bigFloat => .ok (formatDec (decOp op (parseDecLenient prevV) (parseDecLenient latestV)))
  | _ => .error "merge: unsupported value type for numeric update policy"

/-- Modelled from the spec: per-key resolution of `Merge` when a key exists
in both segments (the policy table of the store design; the spec's merge
table defines no resolution for the Set policy, modelled as a merge
error). -/
def mergeSharedValue (pol : UpdatePolicy) (vt : ValueType) (prevV latestV : String) :
    Except String String :=
  match pol with
  | .replace => .ok latestV
  | .ignore => .ok prevV
  | .setIfNotExists => .ok prevV
  | .append => .ok (prevV ++ latestV)
  | .sum => numericMergeValue .opSum vt prevV latestV
  | .min => numericMergeValue .opMin vt prevV latestV
  | .max => numericMergeValue .opMax vt prevV latestV
  | _ => .error "merge: update policy not supported"

/-- Resolution of one `latest` entry against the previous segment: shared
keys go through the policy table, keys only in `latest` are carried. -/
def resolveBoth (pol : UpdatePolicy) (vt : ValueType) (prevKV : KVMap)
    (k vl : String) : Except String String :=
  match kvGet prevKV k with
  | some vp => mergeSharedValue pol vt vp vl
  | none => .ok vl

/-- Modelled from the spec: the `latest` side of the merged map, entry by
entry; fails as soon as one shared key cannot be resolved. -/
def mergeLatestSide (pol : UpdatePolicy) (vt : ValueType) (prevKV : KVMap) :
    KVMap → Except String KVMap
  | [] => .ok []
  | (k, vl) :: rest =>
      match resolveBoth pol vt prevKV k vl with
      | .error e => .error e
      | .ok v =>
          match mergeLatestSide pol vt prevKV rest with
          | .error e => .error e
          | .ok out => .ok ((k, v) :: out)

/-- Whether a prev-segment key survives the merge: it must not collide with
a `latest` key (those were already resolved) and must not start with any
of the later segment's deleted key markers. -/
def keepPrevKey (latestKV : KVMap) (deleted : List String) (k : String) : Bool :=
  (kvGet latestKV k).isNone && !(deleted.any (fun p => strStartsWith k p))

/-- Modelled from the spec: the prev-only side of the merged map ("any key
in prev matching a prefix in latest.DeletedPrefixes is dropped"). -/
def mergePrevSide (latestKV : KVMap) (deleted : List String) (prevKV : KVMap) : KVMap :=
  prevKV.filter (fun kv => keepPrevKey latestKV deleted kv.1)

/-- A `state.Builder` as exercised by `state/merge_test.go`: name, module
start block, module hash, update policy, value type, key/value content and
deleted key markers. `lastKVSavedBlock` models the pure content of
`builder.Info(ctx).LastKVSavedBlock` read by the orchestrator. -/
structure Builder where
  name : String
  moduleStartBlock : Nat
  moduleHash : String
  updatePolicy : UpdatePolicy
  valueType : ValueType
  KV : KVMap
  DeletedPrefixes : List String
  lastKVSavedBlock : Nat
deriving Repr, DecidableEq

/-- Modelled from the spec: `Builder.Merge` (implementation absent from
`src/`, specified by the merge preconditions, the policy table, the
deleted-key rule and `state/merge_test.go`). Combines the earlier segment
`prev` into the later segment `latest`. -/
def Builder.Merge (latest prev : Builder) : Except String Builder :=
  if latest.moduleHash ≠ prev.moduleHash then
    .error "merge: different module hashes"
  else if latest.updatePolicy ≠ prev.updatePolicy then
    .error "merge: different update policies"
  else if latest.valueType ≠ prev.valueType then
    .error "merge: different value types"
  else
    match mergeLatestSide latest.updatePolicy latest.valueType prev.KV latest.KV with
    | .error e => .error e
    | .ok ls =>
        .ok { latest with
              KV := ls ++ mergePrevSide latest.KV latest.DeletedPrefixes prev.KV }

/-- Operation kinds of a store delta (`pbsubstreams.StoreDelta_*`). -/
inductive DeltaOperation
  | create
  | update
  | delete
deriving Repr, DecidableEq

/-- A `pbsubstreams.StoreDelta`: operation, ordinal, key, old and new
value. `oldValue = none` models the nil old value of a CREATE delta. -/
structure StoreDelta where
  operation : DeltaOperation
  ordinal : Nat
  key : String
  oldValue : Option String
  newValue : String
deriving Repr, DecidableEq

/-- A runtime `state.Store`: the materialized key/value view, the pending
per-block delta list, and the ordinal high-water mark maintained by
`bumpOrdinal`. -/
structure Store where
  KV : KVMap
  Deltas : List StoreDelta
  lastOrdinal : Nat
deriving Repr, DecidableEq

/-- Modelled from the spec: `bumpOrdinal` (implementation absent from
`src/`) keeps the per-block ordinal sequence monotone by raising the
high-water mark to `ord`. -/
def Store.bumpOrdinal (s : Store) (ord : Nat) : Store :=
  if s.lastOrdinal < ord then { s with lastOrdinal := ord } else s

/-- Modelled from the spec: `GetLast(key)` returns the current value
(implementation absent from `src/`); the model keeps `KV` materialized, so
the current value is a plain lookup. -/
def Store.GetLast (s : Store) (key : String) : Option String :=
  kvGet s.KV key

/-- Modelled from the spec: `ApplyDelta` applies one delta to the
materialized view ("applying deltas in ordinal order to the pre-block
state yields the post-block state"; implementation absent from `src/`). -/
def Store.ApplyDelta (s : Store) (d : StoreDelta) : Store :=
  match d.operation with
  | .create => { s with KV := kvSet s.KV d.key d.newValue }
  | .update => { s with KV := kvSet s.KV d.key d.newValue }
  | .delete => { s with KV := kvDel s.KV d.key }

/-- `state/value_set.go` `set`: rejects the reserved `__!__` key space,
bumps the ordinal, short-circuits when the new value byte-equals the
current one, and otherwise applies and records an UPDATE or CREATE delta.
The Go `panic` is modelled as `Except.error`. -/
def Store.set (s : Store) (ord : Nat) (key value : String) : Except String Store :=
  if strStartsWith key "__!__" then
    .error "key prefix __!__ is reserved for internal system use."
  else
    let s1 := s.bumpOrdinal ord
    match s1.GetLast key with
    | some val =>
        if value = val then .ok s1
        else
          let delta : StoreDelta := ⟨.update, ord, key, some val, value⟩
          .ok { s1.ApplyDelta delta with Deltas := s1.Deltas ++ [delta] }
    | none =>
        let delta : StoreDelta := ⟨.create, ord, key, none, value⟩
        .ok { s1.ApplyDelta delta with Deltas := s1.Deltas ++ [delta] }

/-- `state/value_set.go` `setIfNotExists`: bumps the ordinal, returns the
store untouched when the key exists, and otherwise applies and records a
CREATE delta. Note: no reserved-key check, and the function cannot fail. -/
def Store.setIfNotExists (s : Store) (ord : Nat) (key value : String) : Store :=
  let s1 := s.bumpOrdinal ord
  match s1.GetLast key with
  | some _ => s1
  | none =>
      let delta : StoreDelta := ⟨.create, ord, key, none, value⟩
      { s1.ApplyDelta delta with Deltas := s1.Deltas ++ [delta] }

/-- `state/value_set.go` `Set` (string values are the byte slices of their
text, which the model identifies with `String`). -/
def Store.Set (s : Store) (ord : Nat) (key value : String) : Except String Store :=
  Store.set s ord key value

/-- `state/value_set.go` `SetIfNotExists`. -/
def Store.SetIfNotExists (s : Store) (ord : Nat) (key value : String) : Store :=
  Store.setIfNotExists s ord key value

/-- `state/value_set.go` `SetBytesIfNotExists`. -/
def Store.SetBytesIfNotExists (s : Store) (ord : Nat) (key value : String) : Store :=
  Store.setIfNotExists s ord key value

/-- Cursor step kinds of the block stream (`bstream.Step*`); `invalid`
models any other step value, such as `bstream.StepType(0)`. -/
inductive StepType
  | stepNew
  | stepUndo
  | stepIrreversible
  | stepNewIrreversible
  | invalid
deriving Repr, DecidableEq

/-- A `bstream.BlockRef`: id and number. -/
structure BlockRef where
  id : String
  num : Nat
deriving Repr, DecidableEq

/-- A decoded `bstream.Cursor`. -/
structure Cursor where
  step : StepType
  block : BlockRef
  lib : BlockRef
  headBlock : BlockRef
deriving Repr, DecidableEq

/-- The resolver-relevant fields of a `pbsubstreams.Request`.
`startCursor = none` models the empty opaque cursor string; `some c`
models a cursor string that decodes to `c`. -/
structure Request where
  startBlockNum : Nat
  stopBlockNum : Nat
  productionMode : Bool
  startCursor : Option Cursor
deriving Repr, DecidableEq

/-- The execution plan (`RequestDetails`) produced by the resolver, with
the fields the resolver tests observe. -/
structure RequestDetails where
  requestStartBlockNum : Nat
  linearHandoffBlockNum : Nat
  stopBlockNum : Nat
  isSubRequest : Bool
deriving Repr, DecidableEq

/-- Modelled from the spec: `resolveStartBlockNum` (implementation absent
from `src/`; specified by the resolver table and
`Test_resolveStartBlockNum`). An empty cursor yields `StartBlockNum`; an
Undo cursor re-delivers its block; New, Irreversible and NewIrreversible
cursors resume one block later; any other step fails. -/
def resolveStartBlockNum (req : Request) : Except String Nat :=
  match req.startCursor with
  | none => .ok req.startBlockNum
  | some c =>
      match c.step with
      | .stepUndo => .ok c.block.num
      | .stepNew => .ok (c.block.num + 1)
      | .stepIrreversible => .ok (c.block.num + 1)
      | .stepNewIrreversible => .ok (c.block.num + 1)
      | .invalid => .error "invalid start cursor step"

/-- Modelled from the spec: `computeLiveHandoffBlockNum` (implementation
absent from `src/`; specified by the resolver design and
`Test_computeLiveHandoffBlockNum`). The live-head probe is modelled by its
outcome: `.ok head` when the live hub is available, `.error _` when not. -/
def computeLiveHandoffBlockNum (liveHeadProbe : Except String Nat) (stopBlockNum : Nat) :
    Except String Nat :=
  match liveHeadProbe with
  | .ok recentLiveHead =>
      if stopBlockNum = 0 then .ok recentLiveHead
      else .ok (Nat.min recentLiveHead stopBlockNum)
  | .error _ =>
      if stopBlockNum = 0 then .error "cannot determine the linear handoff block"
      else .ok stopBlockNum

/-- Modelled from the spec and `TestBuildRequestDetails`:
`BuildRequestDetails` (implementation absent from `src/`). The returned
flag records whether the live-head probe was invoked, which the test
observes. Per the test, the probe is consulted exactly when
`ProductionMode` is true — also for sub-requests — and skipped in dev
mode. -/
def BuildRequestDetails (req : Request) (isSubRequest : Bool)
    (liveHeadProbe : Except String Nat) : Except String RequestDetails × Bool :=
  match resolveStartBlockNum req with
  | .error e => (.error e, false)
  | .ok start =>
      if req.productionMode = false then
        (.ok ⟨start, start, req.stopBlockNum, isSubRequest⟩, false)
      else
        match computeLiveHandoffBlockNum liveHeadProbe req.stopBlockNum with
        | .error e => (.error e, true)
        | .ok handoff => (.ok ⟨start, handoff, req.stopBlockNum, isSubRequest⟩, true)

/-- Incoming gRPC metadata: a key maps to the list of its values. -/
abbrev Metadata := List (String × List String)

/-- Go `metadata.MD.Get`: all values of a key, `[]` when absent. -/
def Metadata.get (md : Metadata) (k : String) : List String :=
  ((md.find? (fun kv => kv.1 = k)).map (fun kv => kv.2)).getD []

/-- gRPC status codes relevant to the service. -/
inductive GrpcCode
  | invalidArgument
deriving Repr, DecidableEq

/-- A gRPC status error. -/
structure GrpcError where
  code : GrpcCode
  msg : String
deriving Repr, DecidableEq

/-- `service` `isSubRequest`: a request is a sub-request when its metadata
holds exactly one value `"true"` under `substreams-partial-mode`; such a
request on an instance without partial mode enabled is rejected with
InvalidArgument. `md = none` models a context without incoming metadata. -/
def isSubRequest (partialModeEnabled : Bool) (md : Option Metadata) :
    Except GrpcError Bool :=
  match md with
  | none => .ok false
  | some m =>
      match Metadata.get m "substreams-partial-mode" with
      | [v] =>
          if v = "true" then
            if partialModeEnabled = false then
              .error ⟨.invalidArgument, "substreams-partial-mode not enabled on this instance"⟩
            else .ok true
          else .ok false
      | _ => .ok false

/-- A back-processing work request produced by the linear strategy
(`createRequest(reqStartBlock, endBlock, builder.Name, ...)`); the
fork-step, irreversibility and manifest fields are invariant pass-throughs
of the parent request and are omitted. -/
structure WorkRequest where
  startBlockNum : Nat
  stopBlockNum : Nat
  outputModule : String
deriving Repr, DecidableEq

/-- `orchestrator/strategy.go` `LinearStrategy`: the queue of pending
work requests. -/
structure LinearStrategy where
  requests : List WorkRequest
deriving Repr, DecidableEq

/-- The per-builder body of the `NewLinearStrategy` loop: no work when the
handoff equals the module start block or does not exceed the last saved
exclusive end block; otherwise one request from the last saved end block
(or the module start block when nothing was saved) up to the handoff. -/
def planWork (b : Builder) (upToBlockNum : Nat) : Option WorkRequest :=
  if upToBlockNum = b.moduleStartBlock then none
  else if upToBlockNum ≤ b.lastKVSavedBlock then none
  else
    let reqStartBlock := if b.lastKVSavedBlock = 0 then b.moduleStartBlock else b.lastKVSavedBlock
    some { startBlockNum := reqStartBlock, stopBlockNum := upToBlockNum, outputModule := b.name }

/-- `orchestrator/strategy.go` `NewLinearStrategy`: one pass over the
builders, appending the work request of each builder that still has blocks
to synchronize. `builder.Info(ctx)` is modelled by the pure
`lastKVSavedBlock` field. -/
def NewLinearStrategy (builders : List Builder) (upToBlockNum : Nat) : LinearStrategy :=
  { requests := builders.filterMap (fun b => planWork b upToBlockNum) }

/-- The sum_int scenario of `TestBuilder_Merge`: later segment. -/
def latestSum : Builder :=
  { name := "b1", moduleStartBlock := 0, moduleHash := "modulehash.1",
    updatePolicy := .sum, valueType := .int64,
    KV := [("one", "1"), ("two", "2")], DeletedPrefixes := [], lastKVSavedBlock := 0 }

/-- The sum_int scenario of `TestBuilder_Merge`: earlier segment. -/
def prevSum : Builder :=
  { name := "b2", moduleStartBlock := 0, moduleHash := "modulehash.1",
    updatePolicy := .sum, valueType := .int64,
    KV := [("one", "1"), ("three", "3")], DeletedPrefixes := [], lastKVSavedBlock := 0 }

/-- The sum_int scenario of `TestBuilder_Merge`: expected merged segment. -/
def resSum : Builder :=
  { latestSum with KV := [("one", "2"), ("two", "2"), ("three", "3")] }

/-- The delete-key-markers scenario of `TestBuilder_Merge`: later segment. -/
def latestDel : Builder :=
  { name := "b1", moduleStartBlock := 0, moduleHash := "modulehash.1",
    updatePolicy := .replace, valueType := .string,
    KV := [("t:1", "bar")], DeletedPrefixes := ["p:"], lastKVSavedBlock := 0 }

/-- The delete-key-markers scenario of `TestBuilder_Merge`: earlier segment. -/
def prevDel : Builder :=
  { name := "b2", moduleStartBlock := 0, moduleHash := "modulehash.1",
    updatePolicy := .replace, valueType := .string,
    KV := [("t:1", "baz"), ("p:3", "lol")], DeletedPrefixes := [], lastKVSavedBlock := 0 }

/-- The delete-key-markers scenario of `TestBuilder_Merge`: merged segment. -/
def resDel : Builder :=
  { latestDel with KV := [("t:1", "bar")] }

/-- A segment with the Ignore policy, for the mismatched-policy scenario. -/
def bIgn : Builder :=
  { name := "b1", moduleStartBlock := 0, moduleHash := "modulehash.1",
    updatePolicy := .ignore, valueType := .string,
    KV := [], DeletedPrefixes := [], lastKVSavedBlock := 0 }

/-- A segment with the Replace policy, for the mismatched-policy scenario. -/
def bRep : Builder :=
  { name := "b2", moduleStartBlock := 0, moduleHash := "modulehash.1",
    updatePolicy := .replace, valueType := .string,
    KV := [], DeletedPrefixes := [], lastKVSavedBlock := 0 }

/-- A store builder with no persisted blocks and a 100-block gap to the
handoff. -/
def wideBuilder : Builder :=
  { name := "s", moduleStartBlock := 0, moduleHash := "h",
    updatePolicy := .replace, valueType := .string,
    KV := [], DeletedPrefixes := [], lastKVSavedBlock := 0 }

/-- A store builder already persisted up to block 5. -/
def planBuilder5 : Builder :=
  { name := "s2", moduleStartBlock := 0, moduleHash := "h",
    updatePolicy := .replace, valueType := .string,
    KV := [], DeletedPrefixes := [], lastKVSavedBlock := 5 }

/-- The production-mode request of `TestBuildRequestDetails`. -/
def reqProd : Request := ⟨10, 0, true, none⟩

/-- The dev-mode request of `TestBuildRequestDetails`. -/
def reqDev : Request := ⟨10, 0, false, none⟩

/-- The Undo-step cursor of `Test_resolveStartBlockNum`. -/
def cUndo : Cursor := ⟨.stepUndo, ⟨"10a", 10⟩, ⟨"9a", 9⟩, ⟨"10a", 10⟩⟩

/-- A request resuming from the Undo-step cursor. -/
def reqUndo : Request := ⟨10, 0, false, some cUndo⟩

/-- Metadata of a well-formed orchestrator sub-request. -/
def mdTrue : Metadata := [("substreams-partial-mode", ["true"])]

/-- Metadata carrying the partial-mode key twice with value true. -/
def mdDoubled : Metadata := [("substreams-partial-mode", ["true", "true"])]

/-- A store holding the single binding `a ↦ x`. -/
def storeAX : Store := ⟨[("a", "x")], [], 0⟩

/-- The store `storeAX` after its ordinal mark was bumped to 1. -/
def storeAXBumped : Store := ⟨[("a", "x")], [], 1⟩

/-- The empty store. -/
def emptyStore : Store := ⟨[], [], 0⟩

theorem kvGet_append_some (a b : KVMap) (k v : String) (h : kvGet a k = some v) :
    kvGet (a ++ b) k = some v := by
  induction a with
  | nil => simp [kvGet] at h
  | cons hd tl ih =>
    obtain ⟨k', v'⟩ := hd
    by_cases hk : k' = k
    · simp only [kvGet, hk, if_pos rfl] at h
      simp only [List.cons_append, kvGet, if_pos hk]
      exact h
    · simp only [kvGet, if_neg hk] at h
      simp only [List.cons_append, kvGet, if_neg hk]
      exact ih h

theorem kvGet_append_none (a b : KVMap) (k : String) (h : kvGet a k = none) :
    kvGet (a ++ b) k = kvGet b k := by
  induction a with
  | nil => simp [kvGet]
  | cons hd tl ih =>
    obtain ⟨k', v'⟩ := hd
    by_cases hk : k' = k
    · simp [kvGet, hk] at h
    · simp only [kvGet, if_neg hk] at h
      simp only [List.cons_append, kvGet, if_neg hk]
      exact ih h

theorem kvGet_kvSet_self (kv : KVMap) (k v : String) :
    kvGet (kvSet kv k v) k = some v := by
  induction kv with
  | nil => simp [kvSet, kvGet]
  | cons hd tl ih =>
    obtain ⟨k', v'⟩ := hd
    by_cases hk : k' = k
    · simp [kvSet, kvGet, hk]
    · simp only [kvSet, if_neg hk, kvGet]
      exact ih

theorem mergeLatestSide_kvGet_some (pol : UpdatePolicy) (vt : ValueType)
    (prevKV lkv out : KVMap) (h : mergeLatestSide pol vt prevKV lkv = .ok out)
    (k vl : String) (hk : kvGet lkv k = some vl) :
    ∃ v, resolveBoth pol vt prevKV k vl = .ok v ∧ kvGet out k = some v := by
  induction lkv generalizing out with
  | nil => simp [kvGet] at hk
  | cons hd tl ih =>
    obtain ⟨k', vl'⟩ := hd
    simp only [mergeLatestSide] at h
    cases hres : resolveBoth pol vt prevKV k' vl' with
    | error e => rw [hres] at h; cases h
    | ok v =>
      rw [hres] at h
      cases htl : mergeLatestSide pol vt prevKV tl with
      | error e => rw [htl] at h; cases h
      | ok out' =>
        rw [htl] at h
        injection h with hout
        subst hout
        by_cases hkk : k' = k
        · subst hkk
          simp only [kvGet, if_pos rfl] at hk
          injection hk with hvl
          subst hvl
          exact ⟨v, hres, by simp [kvGet]⟩
        · simp only [kvGet, if_neg hkk] at hk
          obtain ⟨w, hw1, hw2⟩ := ih out' htl hk
          exact ⟨w, hw1, by simp only [kvGet, if_neg hkk]; exact hw2⟩

theorem mergeLatestSide_kvGet_none (pol : UpdatePolicy) (vt : ValueType)
    (prevKV lkv out : KVMap) (h : mergeLatestSide pol vt prevKV lkv = .ok out)
    (k : String) (hk : kvGet lkv k = none) :
    kvGet out k = none := by
  induction lkv generalizing out with
  | nil =>
    simp only [mergeLatestSide] at h
    injection h with hout
    subst hout
    simp [kvGet]
  | cons hd tl ih =>
    obtain ⟨k', vl'⟩ := hd
    simp only [mergeLatestSide] at h
    cases hres : resolveBoth pol vt prevKV k' vl' with
    | error e => rw [hres] at h; cases h
    | ok v =>
      rw [hres] at h
      cases htl : mergeLatestSide pol vt prevKV tl with
      | error e => rw [htl] at h; cases h
      | ok out' =>
        rw [htl] at h
        injection h with hout
        subst hout
        by_cases hkk : k' = k
        · simp [kvGet, hkk] at hk
        · simp only [kvGet, if_neg hkk] at hk
          simp only [kvGet, if_neg hkk]
          exact ih out' htl hk

theorem mergePrevSide_kvGet (latestKV : KVMap) (deleted : List String)
    (prevKV : KVMap) (k : String) :
    kvGet (mergePrevSide latestKV deleted prevKV) k =
      if keepPrevKey latestKV deleted k then kvGet prevKV k else none := by
  induction prevKV with
  | nil =>
    simp [mergePrevSide, kvGet]
  | cons hd tl ih =>
    obtain ⟨k', v'⟩ := hd
    by_cases hkk : k' = k
    · subst hkk
      cases hkeep : keepPrevKey latestKV deleted k' with
      | true => simp [mergePrevSide, List.filter_cons, hkeep, kvGet]
      | false =>
        have hdrop : mergePrevSide latestKV deleted ((k', v') :: tl) =
            mergePrevSide latestKV deleted tl := by
          simp [mergePrevSide, List.filter_cons, hkeep]
        rw [hdrop, ih, hkeep]
        simp
    · cases hkeep : keepPrevKey latestKV deleted k' with
      | true =>
        have hkeep' : mergePrevSide latestKV deleted ((k', v') :: tl) =
            (k', v') :: mergePrevSide latestKV deleted tl := by
          simp [mergePrevSide, List.filter_cons, hkeep]
        rw [hkeep']
        simp only [kvGet, if_neg hkk]
        rw [ih]
      | false =>
        have hdrop : mergePrevSide latestKV deleted ((k', v') :: tl) =
            mergePrevSide latestKV deleted tl := by
          simp [mergePrevSide, List.filter_cons, hkeep]
        rw [hdrop, ih]
        simp [kvGet, hkk]

theorem merge_ok_elim (latest prev res : Builder) (h : Builder.Merge latest prev = .ok res) :
    latest.moduleHash = prev.moduleHash ∧ latest.updatePolicy = prev.updatePolicy ∧
    latest.valueType = prev.valueType ∧
    ∃ ls, mergeLatestSide latest.updatePolicy latest.valueType prev.KV latest.KV = .ok ls ∧
      res.KV = ls ++ mergePrevSide latest.KV latest.DeletedPrefixes prev.KV := by
  unfold Builder.Merge at h
  by_cases h1 : latest.moduleHash = prev.moduleHash
  · rw [if_neg (by simpa using h1)] at h
    by_cases h2 : latest.updatePolicy = prev.updatePolicy
    · rw [if_neg (by simpa using h2)] at h
      by_cases h3 : latest.valueType = prev.valueType
      · rw [if_neg (by simpa using h3)] at h
        cases hls : mergeLatestSide latest.updatePolicy latest.valueType prev.KV latest.KV with
        | error e => rw [hls] at h; cases h
        | ok ls =>
          rw [hls] at h
          injection h with hres
          subst hres
          exact ⟨h1, h2, h3, ls, rfl, rfl⟩
      · rw [if_pos (by simpa using h3)] at h; cases h
    · rw [if_pos (by simpa using h2)] at h; cases h
  · rw [if_pos (by simpa using h1)] at h; cases h

theorem bumpOrdinal_KV (s : Store) (ord : Nat) : (s.bumpOrdinal ord).KV = s.KV := by
  unfold Store.bumpOrdinal
  split <;> rfl

theorem bumpOrdinal_Deltas (s : Store) (ord : Nat) :
    (s.bumpOrdinal ord).Deltas = s.Deltas := by
  unfold Store.bumpOrdinal
  split <;> rfl

theorem bumpOrdinal_GetLast (s : Store) (ord : Nat) (k : String) :
    (s.bumpOrdinal ord).GetLast k = s.GetLast k := by
  unfold Store.GetLast
  rw [bumpOrdinal_KV]

theorem resolveBoth_shared (pol : UpdatePolicy) (vt : ValueType) (prevKV : KVMap)
    (k vl vp : String) (hp : kvGet prevKV k = some vp) :
    resolveBoth pol vt prevKV k vl = mergeSharedValue pol vt vp vl := by
  unfold resolveBoth
  rw [hp]

theorem resolveBoth_latest_only (pol : UpdatePolicy) (vt : ValueType) (prevKV : KVMap)
    (k vl : String) (hp : kvGet prevKV k = none) :
    resolveBoth pol vt prevKV k vl = .ok vl := by
  unfold resolveBoth
  rw [hp]

theorem setIfNotExists_absent (s : Store) (ord : Nat) (key value : String)
    (habs : Store.GetLast s key = none) :
    Store.setIfNotExists s ord key value =
      { (s.bumpOrdinal ord).ApplyDelta ⟨.create, ord, key, none, value⟩ with
        Deltas := (s.bumpOrdinal ord).Deltas ++ [⟨.create, ord, key, none, value⟩] } := by
  have hb : (s.bumpOrdinal ord).GetLast key = none := by
    rw [bumpOrdinal_GetLast]
    exact habs
  simp only [Store.setIfNotExists]
  rw [hb]

theorem buildRequestDetails_start_err (req : Request) (isSub : Bool)
    (probe : Except String Nat) (e : String) (hs : resolveStartBlockNum req = .error e) :
    BuildRequestDetails req isSub probe = (.error e, false) := by
  unfold BuildRequestDetails
  rw [hs]

theorem buildRequestDetails_start_ok (req : Request) (isSub : Bool)
    (probe : Except String Nat) (s : Nat) (hs : resolveStartBlockNum req = .ok s) :
    BuildRequestDetails req isSub probe =
      (if req.productionMode = false then
        (.ok ⟨s, s, req.stopBlockNum, isSub⟩, false)
      else
        match computeLiveHandoffBlockNum probe req.stopBlockNum with
        | .error e => (.error e, true)
        | .ok handoff => (.ok ⟨s, handoff, req.stopBlockNum, isSub⟩, true)) := by
  unfold BuildRequestDetails
  rw [hs]

/-- C4: resolveStartBlockNum returns request.StartBlockNum when StartCursor
is empty; for a cursor with step Undo it returns cursor.block.num; for a
cursor with step New, Irreversible, or NewIrreversible it returns
cursor.block.num + 1; and for any other (unknown or zero) step it fails
with an error. -/
theorem resolveStartBlockNum_cursor_semantics (req : Request) :
    (req.startCursor = none → resolveStartBlockNum req = .ok req.startBlockNum) ∧
    (∀ c, req.startCursor = some c →
      (c.step = .stepUndo → resolveStartBlockNum req = .ok c.block.num) ∧
      ((c.step = .stepNew ∨ c.step = .stepIrreversible ∨ c.step = .stepNewIrreversible) →
        resolveStartBlockNum req = .ok (c.block.num + 1)) ∧
      (c.step = .invalid → resolveStartBlockNum req = .error "invalid start cursor step")) := by
  constructor
  · intro h
    simp [resolveStartBlockNum, h]
  · intro c hc
    refine ⟨?_, ?_, ?_⟩
    · intro hs
      simp [resolveStartBlockNum, hc, hs]
    · rintro (hs | hs | hs) <;> simp [resolveStartBlockNum, hc, hs]
    · intro hs
      simp [resolveStartBlockNum, hc, hs]

/-- Witness for C4 at the Undo-cursor request of the resolver tests. -/
theorem resolveStartBlockNum_cursor_semantics_w :
    resolveStartBlockNum reqUndo = .ok 10 :=
  ((resolveStartBlockNum_cursor_semantics reqUndo).2 cUndo rfl).1 rfl

/-- C5: computeLiveHandoffBlockNum returns recentLiveHead when the live head
is available and stopBlockNum is 0; returns min(recentLiveHead,
stopBlockNum) when the live head is available and stopBlockNum is nonzero;
returns stopBlockNum when the live head is unavailable and stopBlockNum is
nonzero; and fails with an error exactly when the live head is unavailable
and stopBlockNum is 0. -/
theorem computeLiveHandoffBlockNum_cases (head stop : Nat) (e : String) :
    (computeLiveHandoffBlockNum (.ok head) 0 = .ok head) ∧
    (stop ≠ 0 → computeLiveHandoffBlockNum (.ok head) stop = .ok (Nat.min head stop)) ∧
    (stop ≠ 0 → computeLiveHandoffBlockNum (.error e) stop = .ok stop) ∧
    (computeLiveHandoffBlockNum (.error e) 0 =
      .error "cannot determine the linear handoff block") := by
  refine ⟨rfl, ?_, ?_, rfl⟩ <;> intro h <;> simp [computeLiveHandoffBlockNum, h]

/-- Witness for C5 at the capped live-head scenario of the tests. -/
theorem computeLiveHandoffBlockNum_cases_w :
    computeLiveHandoffBlockNum (.ok 100) 50 = .ok 50 :=
  (computeLiveHandoffBlockNum_cases 100 50 "x").2.1 (by decide)

/-- Counterexample to C1: for the production sub-request of
`TestBuildRequestDetails` (StartBlockNum 10, ProductionMode true,
isSubRequest true, probe yielding 999) the plan's linearHandoffBlockNum is
999, not the requestStartBlockNum 10, and the probe is invoked — the claim
asserts that every request with isSubRequest true takes the dev branch. -/
theorem buildRequestDetails_subrequest_counter :
    BuildRequestDetails reqProd true (.ok 999) = (.ok ⟨10, 999, 0, true⟩, true) ∧
    (999 : Nat) ≠ 10 :=
  ⟨rfl, by decide⟩

/-- C1 (amended): the dev branch is taken exactly when ProductionMode is
false, regardless of isSubRequest: there the plan's linearHandoffBlockNum
equals requestStartBlockNum and the live-head probe is not invoked; when
ProductionMode is true — including for sub-requests — the probe is invoked
and linearHandoffBlockNum is computed via computeLiveHandoffBlockNum. -/
theorem buildRequestDetails_probe_usage (req : Request) (isSub : Bool)
    (probe : Except String Nat) :
    (req.productionMode = false →
      (BuildRequestDetails req isSub probe).2 = false ∧
      ∀ d, (BuildRequestDetails req isSub probe).1 = .ok d →
        d.linearHandoffBlockNum = d.requestStartBlockNum) ∧
    (req.productionMode = true →
      ∀ s, resolveStartBlockNum req = .ok s →
        (BuildRequestDetails req isSub probe).2 = true ∧
        (BuildRequestDetails req isSub probe).1 =
          (computeLiveHandoffBlockNum probe req.stopBlockNum).map
            (fun h => ⟨s, h, req.stopBlockNum, isSub⟩)) := by
  constructor
  · intro hp
    cases hr : resolveStartBlockNum req with
    | error e =>
      rw [buildRequestDetails_start_err req isSub probe e hr]
      exact ⟨rfl, fun d hd => by cases hd⟩
    | ok s =>
      rw [buildRequestDetails_start_ok req isSub probe s hr, if_pos hp]
      refine ⟨rfl, fun d hd => ?_⟩
      injection hd with hd
      subst hd
      rfl
  · intro hp s hs
    rw [buildRequestDetails_start_ok req isSub probe s hs,
      if_neg (by rw [hp]; exact fun h => Bool.noConfusion h)]
    cases hc : computeLiveHandoffBlockNum probe req.stopBlockNum with
    | error e => simp [Except.map]
    | ok handoff => simp [Except.map]

/-- Witness for C1 (amended) at the dev-mode request of the tests. -/
theorem buildRequestDetails_probe_usage_w :
    (BuildRequestDetails reqDev true (.ok 999)).2 = false :=
  ((buildRequestDetails_probe_usage reqDev true (.ok 999)).1 rfl).1

/-- Counterexample to C10: a request whose metadata carries
substreams-partial-mode: true twice is neither rejected by an instance
without partial mode nor treated as a sub-request by one with it — the
code requires exactly one metadata value. -/
theorem isSubRequest_doubled_metadata_counter :
    "true" ∈ Metadata.get mdDoubled "substreams-partial-mode" ∧
    isSubRequest false (some mdDoubled) = .ok false ∧
    isSubRequest true (some mdDoubled) = .ok false :=
  ⟨by decide, rfl, rfl⟩

/-- C10 (amended): a request whose metadata carries exactly one value for
substreams-partial-mode and whose value is true is rejected with an
invalid-argument error by an instance without partial mode enabled and is
treated as a sub-request by an instance with it; requests without that
metadata key (or without metadata at all) are never treated as
sub-requests. -/
theorem isSubRequest_metadata_semantics (m : Metadata) :
    (Metadata.get m "substreams-partial-mode" = ["true"] →
      isSubRequest false (some m) =
        .error ⟨.invalidArgument, "substreams-partial-mode not enabled on this instance"⟩ ∧
      isSubRequest true (some m) = .ok true) ∧
    (Metadata.get m "substreams-partial-mode" = [] →
      ∀ enabled, isSubRequest enabled (some m) = .ok false) ∧
    (∀ enabled, isSubRequest enabled none = .ok false) := by
  refine ⟨?_, ?_, fun _ => rfl⟩
  · intro h
    constructor <;> · dsimp only [isSubRequest]; rw [h]; rfl
  · intro h enabled
    dsimp only [isSubRequest]
    rw [h]

/-- Witness for C10 (amended) at well-formed sub-request metadata. -/
theorem isSubRequest_metadata_semantics_w :
    isSubRequest false (some mdTrue) =
      .error ⟨.invalidArgument, "substreams-partial-mode not enabled on this instance"⟩ ∧
    isSubRequest true (some mdTrue) = .ok true :=
  (isSubRequest_metadata_semantics mdTrue).1 (by decide)

/-- Counterexample to C3: for a store with start block 0, nothing persisted
and handoff 100, NewLinearStrategy produces a single work unit spanning all
100 blocks — far more than a configured blockRangeSizeSubRequests of 10;
the strategy takes no range-size parameter and never splits. -/
theorem newLinearStrategy_no_chunking_counter :
    NewLinearStrategy [wideBuilder] 100 =
      { requests := [{ startBlockNum := 0, stopBlockNum := 100, outputModule := "s" }] } ∧
    ¬ (100 - (0 : Nat) ≤ 10) :=
  ⟨rfl, by decide⟩

/-- C3 (amended): if the handoff equals the module's start block, or the
last persisted exclusive end block is at or beyond the handoff, no work
unit is produced; otherwise exactly one work unit is produced, running from
the last persisted end block (or the module start block when nothing was
persisted) to the handoff — a range that contains
[max(lastKVSavedBlock, module.startBlock), handoff) — with no per-unit
size cap. -/
theorem newLinearStrategy_work_plan (b : Builder) (upTo : Nat) :
    (upTo = b.moduleStartBlock → NewLinearStrategy [b] upTo = { requests := [] }) ∧
    (b.lastKVSavedBlock ≥ upTo → NewLinearStrategy [b] upTo = { requests := [] }) ∧
    (upTo ≠ b.moduleStartBlock → b.lastKVSavedBlock < upTo →
      NewLinearStrategy [b] upTo =
        { requests := [{
            startBlockNum :=
              if b.lastKVSavedBlock = 0 then b.moduleStartBlock else b.lastKVSavedBlock,
            stopBlockNum := upTo,
            outputModule := b.name }] } ∧
      (if b.lastKVSavedBlock = 0 then b.moduleStartBlock else b.lastKVSavedBlock) ≤
        Max.max b.lastKVSavedBlock b.moduleStartBlock) := by
  refine ⟨?_, ?_, ?_⟩
  · intro h
    simp [NewLinearStrategy, planWork, h]
  · intro h
    by_cases h0 : upTo = b.moduleStartBlock
    · simp [NewLinearStrategy, planWork, h0]
    · simp [NewLinearStrategy, planWork, h0, Nat.le_of_lt_succ, h]
  · intro h1 h2
    constructor
    · simp [NewLinearStrategy, planWork, h1, Nat.not_le.mpr h2]
    · by_cases h0 : b.lastKVSavedBlock = 0
      · rw [if_pos h0]
        exact Nat.le_max_right _ _
      · rw [if_neg h0]
        exact Nat.le_max_left _ _

/-- Witness for C3 (amended) at a builder persisted up to block 5 with
handoff 8. -/
theorem newLinearStrategy_work_plan_w :
    NewLinearStrategy [planBuilder5] 8 =
      { requests := [{ startBlockNum := 5, stopBlockNum := 8, outputModule := "s2" }] } :=
  ((newLinearStrategy_work_plan planBuilder5 8).2.2 (by decide) (by decide)).1

/-- C6: for every store, ordinal, and key, a Set whose new value is
byte-equal to the key's current value is a no-op: it emits no delta and
leaves the store's key/value state and delta list unchanged. -/
theorem set_byte_equal_is_noop (s : Store) (ord : Nat) (key value : String) (s' : Store)
    (hcur : Store.GetLast s key = some value)
    (hok : Store.set s ord key value = .ok s') :
    s'.KV = s.KV ∧ s'.Deltas = s.Deltas := by
  have hb : (s.bumpOrdinal ord).GetLast key = some value := by
    rw [bumpOrdinal_GetLast]
    exact hcur
  by_cases hres : strStartsWith key "__!__" = true
  · dsimp only [Store.set] at hok
    rw [if_pos hres] at hok
    cases hok
  · dsimp only [Store.set] at hok
    rw [if_neg hres] at hok
    split at hok
    next val heq =>
      rw [hb] at heq
      injection heq with heq
      subst heq
      rw [if_pos rfl] at hok
      injection hok with h'
      subst h'
      exact ⟨bumpOrdinal_KV s ord, bumpOrdinal_Deltas s ord⟩
    next heq =>
      rw [hb] at heq
      cases heq

/-- Witness for C6: rewriting the current binding `a ↦ x` only bumps the
ordinal mark. -/
theorem set_byte_equal_is_noop_w :
    storeAXBumped.KV = storeAX.KV ∧ storeAXBumped.Deltas = storeAX.Deltas :=
  set_byte_equal_is_noop storeAX 1 "a" "x" storeAXBumped rfl rfl

/-- C9: unlike set, which fails fatally for any key starting with the
reserved marker, setIfNotExists performs no reserved-key check: for any
key starting with the reserved marker that is not already present, it
succeeds, writes the key, and emits a CREATE delta. -/
theorem setIfNotExists_ignores_reserved_keys (s : Store) (ord : Nat) (key value : String)
    (hres : strStartsWith key "__!__" = true)
    (habs : Store.GetLast s key = none) :
    Store.set s ord key value =
      .error "key prefix __!__ is reserved for internal system use." ∧
    Store.GetLast (Store.setIfNotExists s ord key value) key = some value ∧
    (Store.setIfNotExists s ord key value).Deltas =
      s.Deltas ++ [⟨.create, ord, key, none, value⟩] := by
  refine ⟨?_, ?_, ?_⟩
  · dsimp only [Store.set]
    rw [if_pos hres]
  · rw [setIfNotExists_absent s ord key value habs]
    dsimp only [Store.GetLast, Store.ApplyDelta]
    exact kvGet_kvSet_self _ _ _
  · rw [setIfNotExists_absent s ord key value habs]
    dsimp only [Store.ApplyDelta]
    rw [bumpOrdinal_Deltas]

/-- Witness for C9: a reserved metadata key absent from the empty store. -/
theorem setIfNotExists_ignores_reserved_keys_w :
    Store.set emptyStore 1 "__!__meta" "v" =
      .error "key prefix __!__ is reserved for internal system use." ∧
    Store.GetLast (Store.setIfNotExists emptyStore 1 "__!__meta" "v") "__!__meta" =
      some "v" ∧
    (Store.setIfNotExists emptyStore 1 "__!__meta" "v").Deltas =
      emptyStore.Deltas ++ [⟨.create, 1, "__!__meta", none, "v"⟩] :=
  setIfNotExists_ignores_reserved_keys emptyStore 1 "__!__meta" "v" (by decide) rfl

/-- C8: Merge(latest, prev) fails with an error whenever the two segments
differ in moduleHash, in updatePolicy, or in valueType; whenever it
proceeds, all three match. -/
theorem merge_requires_matching_segments (latest prev : Builder) :
    ((latest.moduleHash ≠ prev.moduleHash ∨ latest.updatePolicy ≠ prev.updatePolicy ∨
      latest.valueType ≠ prev.valueType) →
      ∃ e, Builder.Merge latest prev = .error e) ∧
    (∀ res, Builder.Merge latest prev = .ok res →
      latest.moduleHash = prev.moduleHash ∧ latest.updatePolicy = prev.updatePolicy ∧
      latest.valueType = prev.valueType) := by
  constructor
  · intro h
    unfold Builder.Merge
    rcases h with h | h | h
    · exact ⟨"merge: different module hashes", by rw [if_pos h]⟩
    · by_cases h1 : latest.moduleHash ≠ prev.moduleHash
      · exact ⟨"merge: different module hashes", by rw [if_pos h1]⟩
      · exact ⟨"merge: different update policies", by rw [if_neg h1, if_pos h]⟩
    · by_cases h1 : latest.moduleHash ≠ prev.moduleHash
      · exact ⟨"merge: different module hashes", by rw [if_pos h1]⟩
      · by_cases h2 : latest.updatePolicy ≠ prev.updatePolicy
        · exact ⟨"merge: different update policies", by rw [if_neg h1, if_pos h2]⟩
        · exact ⟨"merge: different value types", by rw [if_neg h1, if_neg h2, if_pos h]⟩
  · intro res h
    obtain ⟨h1, h2, h3, -⟩ := merge_ok_elim latest prev res h
    exact ⟨h1, h2, h3⟩

/-- Witness for C8: the mismatched-policy scenario of `TestBuilder_Merge`
is rejected. -/
theorem merge_requires_matching_segments_w :
    ∃ e, Builder.Merge bIgn bRep = .error e :=
  (merge_requires_matching_segments bIgn bRep).1 (Or.inr (Or.inl (by decide)))

/-- Counterexample to C2: in the delete-key-markers scenario of
`TestBuilder_Merge`, the key p:3 is present only in prev yet is absent
from the merged result, because it starts with the marker p: listed by
latest — the claim asserts every key present in only one segment is
carried into the result unchanged. -/
theorem merge_prev_only_key_dropped_counter :
    Builder.Merge latestDel prevDel = .ok resDel ∧
    kvGet prevDel.KV "p:3" = some "lol" ∧
    kvGet latestDel.KV "p:3" = none ∧
    kvGet resDel.KV "p:3" = none :=
  ⟨rfl, rfl, rfl, rfl⟩

/-- C2 (amended): for every pair of mergeable segments and every key
present in both, Merge(latest, prev) resolves the key by policy — Sum
yields the numeric addition of the parsed prev and latest values under the
declared value type, Min the numeric minimum, Max the numeric maximum,
Replace keeps latest's value, Ignore and SetIfNotExists keep prev's value;
every key present only in latest is carried unchanged, and a key present
only in prev is carried unchanged provided it does not start with any
entry of latest.DeletedPrefixes. -/
theorem merge_policy_resolution (latest prev res : Builder)
    (hm : Builder.Merge latest prev = .ok res) (k : String) :
    (∀ vp vl, kvGet prev.KV k = some vp → kvGet latest.KV k = some vl →
      ((latest.updatePolicy = .replace → kvGet res.KV k = some vl) ∧
       (latest.updatePolicy = .ignore → kvGet res.KV k = some vp) ∧
       (latest.updatePolicy = .setIfNotExists → kvGet res.KV k = some vp) ∧
       (∀ op, latest.updatePolicy = numPolicy op →
         ((latest.valueType = .int64 ∨ latest.valueType = .bigInt) →
           kvGet res.KV k =
             some (toString (intOp op (parseIntLenient vp) (parseIntLenient vl)))) ∧
         ((latest.valueType = .float64 ∨ latest.valueType = .bigFloat) →
           kvGet res.KV k =
             some (formatDec (decOp op (parseDecLenient vp) (parseDecLenient vl))))))) ∧
    (kvGet prev.KV k = none → kvGet res.KV k = kvGet latest.KV k) ∧
    (kvGet latest.KV k = none →
      latest.DeletedPrefixes.any (fun p => strStartsWith k p) = false →
      kvGet res.KV k = kvGet prev.KV k) := by
  obtain ⟨-, -, -, ls, hls, hkv⟩ := merge_ok_elim latest prev res hm
  refine ⟨?_, ?_, ?_⟩
  · intro vp vl hp hl
    obtain ⟨v, hv1, hv2⟩ := mergeLatestSide_kvGet_some _ _ _ _ _ hls k vl hl
    rw [resolveBoth_shared _ _ _ _ _ _ hp] at hv1
    have hres : kvGet res.KV k = some v := by
      rw [hkv]
      exact kvGet_append_some _ _ _ _ hv2
    refine ⟨?_, ?_, ?_, ?_⟩
    · intro hpol
      rw [hpol] at hv1
      dsimp only [mergeSharedValue] at hv1
      injection hv1 with hv1
      rw [hres, hv1]
    · intro hpol
      rw [hpol] at hv1
      dsimp only [mergeSharedValue] at hv1
      injection hv1 with hv1
      rw [hres, hv1]
    · intro hpol
      rw [hpol] at hv1
      dsimp only [mergeSharedValue] at hv1
      injection hv1 with hv1
      rw [hres, hv1]
    · intro op hpol
      rw [hpol] at hv1
      constructor
      · rintro (hvt | hvt) <;>
          · rw [hvt] at hv1
            cases op <;>
              · dsimp only [numPolicy, mergeSharedValue, numericMergeValue] at hv1
                injection hv1 with hv1
                rw [hres, hv1]
      · rintro (hvt | hvt) <;>
          · rw [hvt] at hv1
            cases op <;>
              · dsimp only [numPolicy, mergeSharedValue, numericMergeValue] at hv1
                injection hv1 with hv1
                rw [hres, hv1]
  · intro hp
    cases hl : kvGet latest.KV k with
    | some vl =>
      obtain ⟨v, hv1, hv2⟩ := mergeLatestSide_kvGet_some _ _ _ _ _ hls k vl hl
      rw [resolveBoth_latest_only _ _ _ _ _ hp] at hv1
      injection hv1 with hv1
      rw [hkv, kvGet_append_some _ _ _ _ hv2, hv1]
    | none =>
      have hln := mergeLatestSide_kvGet_none _ _ _ _ _ hls k hl
      rw [hkv, kvGet_append_none _ _ _ hln, mergePrevSide_kvGet]
      split
      · exact hp
      · rfl
  · intro hl hpre
    have hln := mergeLatestSide_kvGet_none _ _ _ _ _ hls k hl
    rw [hkv, kvGet_append_none _ _ _ hln, mergePrevSide_kvGet]
    have hkeep : keepPrevKey latest.KV latest.DeletedPrefixes k = true := by
      unfold keepPrevKey
      rw [hl, hpre]
      rfl
    rw [hkeep]
    rfl

/-- Witness for C2 (amended) at the sum_int scenario of
`TestBuilder_Merge`: the shared key one merges to the integer sum. -/
theorem merge_policy_resolution_w :
    kvGet resSum.KV "one" =
      some (toString (intOp .opSum (parseIntLenient "1") (parseIntLenient "1"))) :=
  ((((merge_policy_resolution latestSum prevSum resSum rfl "one").1
      "1" "1" rfl rfl).2.2.2) .opSum rfl).1 (Or.inl rfl)

/-- C7: after Merge(latest, prev), every key that is absent from latest and
starts with any entry of latest.DeletedPrefixes is absent from the result,
and every key present in latest survives in the result. -/
theorem merge_deleted_markers (latest prev res : Builder)
    (hm : Builder.Merge latest prev = .ok res) (k : String) :
    (kvGet latest.KV k = none →
      latest.DeletedPrefixes.any (fun p => strStartsWith k p) = true →
      kvGet res.KV k = none) ∧
    (∀ v, kvGet latest.KV k = some v → (kvGet res.KV k).isSome = true) := by
  obtain ⟨-, -, -, ls, hls, hkv⟩ := merge_ok_elim latest prev res hm
  constructor
  · intro hl hpre
    have hln := mergeLatestSide_kvGet_none _ _ _ _ _ hls k hl
    rw [hkv, kvGet_append_none _ _ _ hln, mergePrevSide_kvGet]
    have hkeep : keepPrevKey latest.KV latest.DeletedPrefixes k = false := by
      unfold keepPrevKey
      rw [hpre]
      simp
    rw [hkeep]
    simp
  · intro v hv
    obtain ⟨w, hw1, hw2⟩ := mergeLatestSide_kvGet_some _ _ _ _ _ hls k v hv
    rw [hkv, kvGet_append_some _ _ _ _ hw2]
    rfl

/-- Witness for C7 at the delete-key-markers scenario of
`TestBuilder_Merge`: the prev-only marked key p:3 is gone and the latest
key t:1 survives. -/
theorem merge_deleted_markers_w :
    kvGet resDel.KV "p:3" = none ∧ (kvGet resDel.KV "t:1").isSome = true :=
  ⟨(merge_deleted_markers latestDel prevDel resDel rfl "p:3").1 rfl (by decide),
   (merge_deleted_markers latestDel prevDel resDel rfl "t:1").2 "bar" rfl⟩

end SubstreamsModel
